import Mathlib

/-!
Verification of the MT19937 Mersenne Twister implementation in
`mersenne-twister.cpp` (Christian Stigen Larsen).

The C code keeps a global array `static uint32_t MT[624]` and a cursor
`static int index`.  We embed the array as a total function `Nat → Nat`
whose values at indices `0..623` mirror the C array (indices `≥ 624` are
junk that the code never reads or writes), and the pair array/cursor as a
structure `MTState`.  All machine arithmetic is on `Nat` with explicit
`% 2^32` wherever `uint32_t` wraps.

Source-side definitions (`generate_numbers`, `seed`, `rand_u32`, `temper`,
`UNROLL`, `M32`, `L31`, the loop shapes) are transcribed from the C code;
the `while` loops are embedded as structurally recursive functions with a
fuel argument that is always large enough that the loop guard, not the
fuel, terminates the iteration.  Spec-side definitions (`twist_spec`,
`temper_spec`, `refSeedWord`, `refStep`) transcribe the natural-language
specification of the algorithm (the canonical MT19937 reference, whose C
source `reference/mt19937ar.h` is not part of the sources at hand).
-/

/-- Number of 32-bit words of state (`static const int SIZE = 624`). -/
def SIZE : Nat := 624

/-- The recurrence lag (`static const int PERIOD = 397`). -/
def PERIOD : Nat := 397

/-- `static const int DIFF = SIZE - PERIOD` (= 227). -/
def DIFF : Nat := SIZE - PERIOD

/-- The twist constant (`static const uint32_t MAGIC = 0x9908b0df`). -/
def MAGIC : Nat := 0x9908b0df

/-- Pointwise update of the state array: `f[i] = v`. -/
def upd (f : Nat → Nat) (i v : Nat) : Nat → Nat :=
  fun j => if j = i then v else f j

/-- `#define M32(x) (0x80000000 & x)` : the most significant of 32 bits. -/
def M32 (x : Nat) : Nat := 0x80000000 &&& x

/-- `#define L31(x) (0x7FFFFFFF & x)` : the 31 least significant bits. -/
def L31 (x : Nat) : Nat := 0x7FFFFFFF &&& x

/-- Reinterpret a 32-bit pattern as a two's-complement `int32_t`. -/
def toInt32 (p : Nat) : Int :=
  if p < 0x80000000 then (p : Int) else (p : Int) - 0x100000000

/-- The branchless odd-mask `((int32_t(y) << 31) >> 31) & MAGIC` from the
`UNROLL` macro, modelled with two's-complement semantics: the cast and left
shift keep the low 32 bits of `y <<< 31`, the signed right shift is floor
division by `2^31`, and the result pattern is taken `&&& MAGIC`. -/
def signMask (y : Nat) : Nat :=
  let p := (y <<< 31) % 0x100000000
  let s := Int.fdiv (toInt32 p) 0x80000000
  (Int.toNat (Int.emod s 0x100000000)) &&& MAGIC

/-- The body of the C macro

`#define UNROLL(expr) y = M32(MT[i]) | L31(MT[i+1]); MT[i] = MT[expr] ^ (y >> 1) ^ (((int32_t(y) << 31) >> 31) & MAGIC); ++i;`

as a state-array transformer; `src` is the already-evaluated index `expr`
(the `++i` is explicit at each use site below). -/
def UNROLL (f : Nat → Nat) (i src : Nat) : Nat → Nat :=
  let y := M32 (f i) ||| L31 (f (i + 1))
  upd f i ((f src) ^^^ (y >>> 1) ^^^ signMask y)

/-- First loop of `generate_numbers`: `while (i < DIFF-1)` with the body
`UNROLL(i+PERIOD); UNROLL(i+PERIOD);` (the second use sees the incremented
`i`).  Fuel-guarded while loop. -/
def genLoop1 : Nat → (Nat → Nat) → Nat → (Nat → Nat)
  | 0, f, _ => f
  | fuel + 1, f, i =>
    if i < DIFF - 1 then
      genLoop1 fuel (UNROLL (UNROLL f i (i + PERIOD)) (i + 1) (i + 1 + PERIOD)) (i + 2)
    else f

/-- A run of `k` consecutive `UNROLL(i-DIFF);` expansions, each seeing the
`i` incremented by its predecessor. -/
def unrollRun : Nat → (Nat → Nat) → Nat → (Nat → Nat)
  | 0, f, _ => f
  | k + 1, f, i => unrollRun k (UNROLL f i (i - DIFF)) (i + 1)

/-- Second loop of `generate_numbers`: `while (i < SIZE-1)` whose body is
eleven `UNROLL(i-DIFF);` expansions (two written out plus nine under
`#ifdef MT_UNROLL_MORE`, which the file defines).  Fuel-guarded. -/
def genLoop2 : Nat → (Nat → Nat) → Nat → (Nat → Nat)
  | 0, f, _ => f
  | fuel + 1, f, i =>
    if i < SIZE - 1 then genLoop2 fuel (unrollRun 11 f i) (i + 11)
    else f

/-- `static void generate_numbers()` : the unrolled twist.  Region one
covers `i = 0 .. 225`, then the single step `UNROLL((i+PERIOD) % SIZE)` at
`i = 226`, region two covers `i = 227 .. 622`, and the final step at
`i = 623` is written out (`y = M32(MT[SIZE-1]) | L31(MT[0]); MT[SIZE-1] =
MT[PERIOD-1] ^ (y >> 1) ^ (((int32_t(y) << 31) >> 31) & MAGIC);`). -/
def generate_numbers (f : Nat → Nat) : Nat → Nat :=
  let f1 := genLoop1 DIFF f 0
  let f2 := UNROLL f1 (DIFF - 1) ((DIFF - 1 + PERIOD) % SIZE)
  let f3 := genLoop2 SIZE f2 DIFF
  let y := M32 (f3 (SIZE - 1)) ||| L31 (f3 0)
  upd f3 (SIZE - 1) ((f3 (PERIOD - 1)) ^^^ (y >>> 1) ^^^ signMask y)

/-- Modelled from the spec: one step of the naive left-to-right twist pass,
`y = bit31(words[i]) | low31(words[(i+1) mod 624])`, then
`next = words[(i+PERIOD) mod 624] XOR (y >> 1)`, XORed with `0x9908b0df`
when `y` is odd. -/
def twistVal_spec (w : Nat → Nat) (i : Nat) : Nat :=
  let y := (w i &&& 0x80000000) ||| (w ((i + 1) % 624) &&& 0x7FFFFFFF)
  let next := (w ((i + 397) % 624)) ^^^ (y >>> 1)
  if y % 2 = 1 then next ^^^ 0x9908b0df else next

/-- Modelled from the spec: writing `words[i]` in the naive pass. -/
def twistStep_spec (w : Nat → Nat) (i : Nat) : Nat → Nat :=
  upd w i (twistVal_spec w i)

/-- Modelled from the spec: the naive sequential left-to-right twist over
indices `0..623`, each step reading the partially rewritten array. -/
def twist_spec (w : Nat → Nat) : Nat → Nat :=
  List.foldl twistStep_spec w (List.range 624)

/-- The tempering transform of `rand_u32` (lines `y ^= y >> 11;` through
`y ^= y >> 18;`), on unsigned 32-bit values: left shifts wrap mod `2^32`. -/
def temper (y0 : Nat) : Nat :=
  let y1 := y0 ^^^ (y0 >>> 11)
  let y2 := y1 ^^^ (((y1 <<< 7) % 0x100000000) &&& 0x9d2c5680)
  let y3 := y2 ^^^ (((y2 <<< 15) % 0x100000000) &&& 0xefc60000)
  y3 ^^^ (y3 >>> 18)

/-- Modelled from the spec: the tempering transform of the reference
algorithm (spec section 4.3), identical in content to `temper`. -/
def temper_spec (y0 : Nat) : Nat :=
  let y1 := y0 ^^^ (y0 >>> 11)
  let y2 := y1 ^^^ (((y1 <<< 7) % 0x100000000) &&& 0x9d2c5680)
  let y3 := y2 ^^^ (((y2 <<< 15) % 0x100000000) &&& 0xefc60000)
  y3 ^^^ (y3 >>> 18)

/-- The global state of the generator: the array `MT` (as a total function
whose values at `0..623` mirror the C array) and the cursor `index`. -/
structure MTState where
  MT : Nat → Nat
  index : Nat

/-- The seeding loop `for (unsigned i=1; i<SIZE; ++i) MT[i] =
0x6c078965*(MT[i-1] ^ MT[i-1]>>30) + i;` with `uint32_t` wraparound,
fuel-guarded. -/
def seedLoop : Nat → (Nat → Nat) → Nat → (Nat → Nat)
  | 0, f, _ => f
  | fuel + 1, f, i =>
    if i < SIZE then
      seedLoop fuel
        (upd f i ((0x6c078965 * (f (i - 1) ^^^ (f (i - 1) >>> 30)) + i) % 0x100000000))
        (i + 1)
    else f

/-- `extern "C" void seed(uint32_t value)` : `MT[0] = value; index = SIZE;`
then the LCG fill of `MT[1..623]`.  State-passing form of the global
mutation. -/
def seed (s : MTState) (value : Nat) : MTState :=
  { MT := seedLoop (SIZE - 1) (upd s.MT 0 value) 1, index := SIZE }

/-- `extern "C" uint32_t rand_u32()` : twist when `index == SIZE`, then
temper `MT[index++]`.  Returns the drawn value and the new state. -/
def rand_u32 (s : MTState) : Nat × MTState :=
  let s1 := if s.index = SIZE then MTState.mk (generate_numbers s.MT) 0 else s
  (temper (s1.MT s1.index), MTState.mk s1.MT (s1.index + 1))

/-- The state of the C translation unit before any call: `static uint32_t
MT[SIZE]` is zero-initialized and `static int index = SIZE`. -/
def initState : MTState := { MT := fun _ => 0, index := SIZE }

/-- Iterate `rand_u32`, discarding the outputs. -/
def randIter : Nat → MTState → MTState
  | 0, s => s
  | n + 1, s => randIter n (rand_u32 s).2

/-- The output of draw number `k + 1` from state `s` (0-indexed draws). -/
def mtOut (s : MTState) (k : Nat) : Nat :=
  (rand_u32 (randIter k s)).1

/-- Modelled from the spec: word `i` of the canonical reference seeding,
`words[0] = value`, `words[i] = (0x6c078965 * (words[i-1] XOR
(words[i-1] >> 30)) + i) mod 2^32`. -/
def refSeedWord (v : Nat) : Nat → Nat
  | 0 => v
  | i + 1 =>
    let w := refSeedWord v i
    (0x6c078965 * (w ^^^ (w >>> 30)) + (i + 1)) % 0x100000000

/-- Modelled from the spec: the reference generator state right after
seeding with `v` (cursor 624, forcing a twist on the first draw). -/
def refState (v : Nat) : MTState :=
  { MT := refSeedWord v, index := 624 }

/-- Modelled from the spec: one draw of the canonical reference algorithm,
twisting with the naive pass when the cursor is 624. -/
def refStep (s : MTState) : Nat × MTState :=
  let s1 := if s.index = 624 then MTState.mk (twist_spec s.MT) 0 else s
  (temper_spec (s1.MT s1.index), MTState.mk s1.MT (s1.index + 1))

/-- Iterate the reference draw, discarding outputs. -/
def refIter : Nat → MTState → MTState
  | 0, s => s
  | n + 1, s => refIter n (refStep s).2

/-- Output of reference draw number `k + 1` (0-indexed). -/
def refOut (s : MTState) (k : Nat) : Nat :=
  (refStep (refIter k s)).1

/-- Iterate the seeding recurrence `k` steps starting from word `w` sitting
at position `i`; used to evaluate `refSeedWord` in bounded-depth chunks. -/
def lcgIter (w i : Nat) : Nat → Nat
  | 0 => w
  | k + 1 =>
    let x := lcgIter w i k
    (0x6c078965 * (x ^^^ (x >>> 30)) + (i + (k + 1))) % 0x100000000

/-- The post-twist word 0 as a function of the pre-twist words 0, 1 and 397
(the shape of `twistVal_spec` at index 0). -/
def firstWord (w0 w1 w397 : Nat) : Nat :=
  let y := (w0 &&& 0x80000000) ||| (w1 &&& 0x7FFFFFFF)
  let next := w397 ^^^ (y >>> 1)
  if y % 2 = 1 then next ^^^ 0x9908b0df else next

/-- Simulation relation between an implementation state and a reference
state: equal cursors (at most 624) and equal state words at `0..623`. -/
def SRel (s t : MTState) : Prop :=
  s.index = t.index ∧ s.index ≤ 624 ∧ ∀ j, j < 624 → s.MT j = t.MT j

/-- States reachable through the public API: some `seed` call (from any
prior global state) followed by any number of `rand_u32` calls. -/
inductive Reachable : MTState → Prop
  | seeded (s : MTState) (v : Nat) : Reachable (seed s v)
  | draw {s : MTState} (h : Reachable s) : Reachable (rand_u32 s).2

/-! ### The branchless odd-mask equals the conditional mask -/

theorem signMask_eq (y : Nat) : signMask y = if y % 2 = 1 then MAGIC else 0 := by
  have h : (y <<< 31) % 0x100000000 = y % 2 * 0x80000000 := by
    rw [Nat.shiftLeft_eq]
    omega
  simp only [signMask]
  rw [h]
  rcases Nat.mod_two_eq_zero_or_one y with h2 | h2 <;> rw [h2] <;> decide

/-- The value written by an `UNROLL` step agrees with the naive twist value
whenever the source indices match the naive ones modulo 624. -/
theorem unroll_val (w : Nat → Nat) (i b c : Nat)
    (hb : w ((i + 1) % 624) = b) (hc : w ((i + 397) % 624) = c) :
    c ^^^ ((M32 (w i) ||| L31 b) >>> 1) ^^^ signMask (M32 (w i) ||| L31 b)
      = twistVal_spec w i := by
  simp only [twistVal_spec, M32, L31, hb, hc, signMask_eq, MAGIC]
  rw [Nat.and_comm 0x80000000 (w i), Nat.and_comm 0x7FFFFFFF b]
  by_cases h2 : ((w i &&& 0x80000000) ||| (b &&& 0x7FFFFFFF)) % 2 = 1
  · rw [if_pos h2, if_pos h2]
  · rw [if_neg h2, if_neg h2, Nat.xor_zero]

/-- An `UNROLL` application is a naive twist step when its source index is
the naive `(i+397) % 624` and the successor index does not wrap. -/
theorem UNROLL_eq_spec (f : Nat → Nat) (i src : Nat)
    (hnx : (i + 1) % 624 = i + 1) (hsrc : (i + 397) % 624 = src) :
    UNROLL f i src = twistStep_spec f i := by
  simp only [UNROLL, twistStep_spec]
  exact congrArg (upd f i) (unroll_val f i (f (i + 1)) (f src) (by rw [hnx]) (by rw [hsrc]))

/-! ### Region step lemmas -/

theorem step_low (f : Nat → Nat) (i : Nat) (h : i < 226) :
    UNROLL f i (i + PERIOD) = twistStep_spec f i := by
  apply UNROLL_eq_spec f i (i + PERIOD) (Nat.mod_eq_of_lt (by omega))
  rw [Nat.mod_eq_of_lt (by omega)]
  norm_num [PERIOD]

theorem step_mid (f : Nat → Nat) :
    UNROLL f (DIFF - 1) ((DIFF - 1 + PERIOD) % SIZE) = twistStep_spec f 226 := by
  have hd : DIFF - 1 = 226 := by norm_num [DIFF, SIZE, PERIOD]
  rw [hd]
  apply UNROLL_eq_spec f 226 _ (Nat.mod_eq_of_lt (by omega))
  norm_num [DIFF, SIZE, PERIOD]

theorem step_high (f : Nat → Nat) (i : Nat) (h1 : 227 ≤ i) (h2 : i < 623) :
    UNROLL f i (i - DIFF) = twistStep_spec f i := by
  apply UNROLL_eq_spec f i (i - DIFF) (Nat.mod_eq_of_lt (by omega))
  have : DIFF = 227 := by norm_num [DIFF, SIZE, PERIOD]
  omega

theorem step_last (f : Nat → Nat) :
    upd f (SIZE - 1)
      ((f (PERIOD - 1)) ^^^ ((M32 (f (SIZE - 1)) ||| L31 (f 0)) >>> 1) ^^^
        signMask (M32 (f (SIZE - 1)) ||| L31 (f 0))) = twistStep_spec f 623 := by
  have hs : SIZE - 1 = 623 := by norm_num [SIZE]
  have hp : PERIOD - 1 = 396 := by norm_num [PERIOD]
  rw [hs, hp]
  simp only [twistStep_spec]
  refine congrArg (upd f 623) (unroll_val f 623 (f 0) (f 396) ?_ ?_) <;> norm_num

/-! ### The fuel-guarded loops are folds over their index ranges -/

theorem genLoop1_eq : ∀ (m fuel : Nat) (f : Nat → Nat) (i : Nat),
    m ≤ fuel → i + 2 * m = 226 →
    genLoop1 fuel f i
      = List.foldl (fun g j => UNROLL g j (j + PERIOD)) f (List.range' i (2 * m)) := by
  intro m
  induction m with
  | zero =>
    intro fuel f i _ hi
    have hi' : i = 226 := by omega
    subst hi'
    cases fuel with
    | zero => simp [genLoop1]
    | succ fl =>
      have : ¬ (226 < DIFF - 1) := by norm_num [DIFF, SIZE, PERIOD]
      simp [genLoop1, this]
  | succ m ih =>
    intro fuel f i hf hi
    cases fuel with
    | zero => omega
    | succ fl =>
      have hguard : i < DIFF - 1 := by
        have : DIFF = 227 := by norm_num [DIFF, SIZE, PERIOD]
        omega
      simp only [genLoop1, if_pos hguard]
      rw [ih fl _ (i + 2) (by omega) (by omega)]
      have h2 : 2 * (m + 1) = (2 * m + 1) + 1 := by omega
      rw [h2, List.range'_succ, List.range'_succ, List.foldl_cons, List.foldl_cons]

theorem unrollRun_eq : ∀ (k : Nat) (f : Nat → Nat) (i : Nat),
    unrollRun k f i
      = List.foldl (fun g j => UNROLL g j (j - DIFF)) f (List.range' i k) := by
  intro k
  induction k with
  | zero => intro f i; simp [unrollRun]
  | succ k ih =>
    intro f i
    simp only [unrollRun]
    rw [ih, List.range'_succ, List.foldl_cons]

theorem genLoop2_eq : ∀ (m fuel : Nat) (f : Nat → Nat) (i : Nat),
    m ≤ fuel → i + 11 * m = 623 →
    genLoop2 fuel f i
      = List.foldl (fun g j => UNROLL g j (j - DIFF)) f (List.range' i (11 * m)) := by
  intro m
  induction m with
  | zero =>
    intro fuel f i _ hi
    have hi' : i = 623 := by omega
    subst hi'
    cases fuel with
    | zero => simp [genLoop2]
    | succ fl =>
      have : ¬ (623 < SIZE - 1) := by norm_num [SIZE]
      simp [genLoop2, this]
  | succ m ih =>
    intro fuel f i hf hi
    cases fuel with
    | zero => omega
    | succ fl =>
      have hguard : i < SIZE - 1 := by norm_num [SIZE]; omega
      simp only [genLoop2, if_pos hguard]
      rw [unrollRun_eq, ih fl _ (i + 11) (by omega) (by omega), ← List.foldl_append]
      have hsplit : List.range' i 11 ++ List.range' (i + 11) (11 * m)
          = List.range' i (11 * (m + 1)) := by
        have h := List.range'_append i 11 (11 * m) 1
        simp only [Nat.one_mul] at h
        rw [h]
        congr 1
      rw [hsplit]

/-! ### Assembling the unrolled twist into the naive pass -/

theorem foldl_congr_mem :
    ∀ (l : List Nat) (F G : (Nat → Nat) → Nat → (Nat → Nat)),
      (∀ g j, j ∈ l → F g j = G g j) →
      ∀ f, List.foldl F f l = List.foldl G f l := by
  intro l
  induction l with
  | nil => intro F G _ f; rfl
  | cons a t ih =>
    intro F G h f
    simp only [List.foldl_cons]
    rw [h f a (List.mem_cons_self a t)]
    exact ih F G (fun g j hj => h g j (List.mem_cons_of_mem a hj)) (G f a)

theorem range'_bound {s n j : Nat} (h : j ∈ List.range' s n) : s ≤ j ∧ j < s + n := by
  obtain ⟨k, hk, rfl⟩ := List.mem_range'.1 h
  omega

/-- The unrolled `generate_numbers` is exactly the naive left-to-right twist
pass of the specification. -/
theorem gen_eq_twist (f : Nat → Nat) : generate_numbers f = twist_spec f := by
  have e1 : genLoop1 DIFF f 0 = List.foldl twistStep_spec f (List.range' 0 226) := by
    have h := genLoop1_eq 113 DIFF f 0 (by norm_num [DIFF, SIZE, PERIOD]) (by norm_num)
    norm_num at h
    rw [h]
    exact foldl_congr_mem _ _ _
      (fun g j hj => step_low g j (by have := range'_bound hj; omega)) f
  have e3 : ∀ g, genLoop2 SIZE g DIFF
      = List.foldl twistStep_spec g (List.range' 227 396) := by
    intro g
    have h := genLoop2_eq 36 SIZE g DIFF (by norm_num [SIZE])
      (by norm_num [DIFF, SIZE, PERIOD])
    rw [h, show List.range' DIFF (11 * 36) = List.range' 227 396 by
      norm_num [DIFF, SIZE, PERIOD]]
    exact foldl_congr_mem _ _ _
      (fun g' j hj => step_high g' j (by have := range'_bound hj; omega)
        (by have := range'_bound hj; omega)) g
  simp only [generate_numbers]
  rw [e1, step_mid, e3, step_last]
  have hsplit : List.range 624
      = List.range' 0 226 ++ 226 :: (List.range' 227 396 ++ [623]) := by
    rw [List.range_eq_range']
    have h1 := List.range'_append 0 226 398 1
    norm_num at h1
    rw [← h1]
    have h2 := List.range'_append 227 396 1 1
    norm_num at h2
    have h3 : List.range' 226 398 = 226 :: List.range' 227 397 := by
      rw [List.range'_succ]
    rw [h3, ← h2]
  rw [twist_spec, hsplit, List.foldl_append, List.foldl_cons, List.foldl_append]
  rfl

/-! ### Frame properties of the naive twist -/

theorem foldl_tss_skip :
    ∀ (l : List Nat) (w : Nat → Nat) (j : Nat),
      (∀ i ∈ l, i ≠ j) → List.foldl twistStep_spec w l j = w j := by
  intro l
  induction l with
  | nil => intro w j _; rfl
  | cons a t ih =>
    intro w j h
    simp only [List.foldl_cons]
    rw [ih _ j (fun i hi => h i (List.mem_cons_of_mem a hi))]
    simp only [twistStep_spec, upd]
    rw [if_neg (fun hja => (h a (List.mem_cons_self a t)) hja.symm)]

theorem twistVal_congr (w1 w2 : Nat → Nat) (a : Nat) (ha : a < 624)
    (h : ∀ j, j < 624 → w1 j = w2 j) : twistVal_spec w1 a = twistVal_spec w2 a := by
  simp only [twistVal_spec]
  rw [h a ha, h _ (Nat.mod_lt _ (by norm_num)), h _ (Nat.mod_lt _ (by norm_num))]

theorem foldl_tss_congr :
    ∀ (l : List Nat) (w1 w2 : Nat → Nat),
      (∀ i ∈ l, i < 624) → (∀ j, j < 624 → w1 j = w2 j) →
      ∀ j, j < 624 → List.foldl twistStep_spec w1 l j = List.foldl twistStep_spec w2 l j := by
  intro l
  induction l with
  | nil => intro w1 w2 _ h j hj; exact h j hj
  | cons a t ih =>
    intro w1 w2 hmem h j hj
    simp only [List.foldl_cons]
    have ha : a < 624 := hmem a (List.mem_cons_self a t)
    apply ih _ _ (fun i hi => hmem i (List.mem_cons_of_mem a hi)) _ j hj
    intro j' hj'
    simp only [twistStep_spec, upd]
    by_cases hja : j' = a
    · rw [if_pos hja, if_pos hja, twistVal_congr w1 w2 a ha h]
    · rw [if_neg hja, if_neg hja]
      exact h j' hj'

/-- The twist never writes outside `0..623`. -/
theorem twist_spec_out (w : Nat → Nat) (j : Nat) (hj : 624 ≤ j) :
    twist_spec w j = w j := by
  apply foldl_tss_skip
  intro i hi
  have := List.mem_range.1 hi
  omega

/-- The twist never reads outside `0..623`. -/
theorem twist_spec_congr (w1 w2 : Nat → Nat)
    (h : ∀ j, j < 624 → w1 j = w2 j) :
    ∀ j, j < 624 → twist_spec w1 j = twist_spec w2 j := by
  intro j hj
  apply foldl_tss_congr _ _ _ (fun i hi => List.mem_range.1 hi) h j hj

/-- Post-twist word 0 is the naive step value computed from the pre-twist
array (the pass writes index 0 first and never touches it again). -/
theorem twist_at_zero (w : Nat → Nat) : twist_spec w 0 = twistVal_spec w 0 := by
  rw [twist_spec, List.range_eq_range',
    show List.range' 0 624 = 0 :: List.range' 1 623 from List.range'_succ 0 623 1,
    List.foldl_cons]
  rw [foldl_tss_skip _ _ 0 (fun i hi => by have := range'_bound hi; omega)]
  simp [twistStep_spec, upd]

/-! ### Seeding lemmas -/

theorem refSeedWord_step (v i : Nat) (h : 1 ≤ i) :
    refSeedWord v i
      = (0x6c078965 * (refSeedWord v (i - 1) ^^^ (refSeedWord v (i - 1) >>> 30)) + i)
          % 0x100000000 := by
  have hi : i - 1 + 1 = i := by omega
  conv_lhs => rw [← hi]
  simp only [refSeedWord]
  rw [hi]

theorem seedLoop_ref :
    ∀ (fuel i : Nat) (f : Nat → Nat) (v : Nat),
      i + fuel = 624 → 1 ≤ i →
      (∀ j, j < i → f j = refSeedWord v j) →
      ∀ j, j < 624 → seedLoop fuel f i j = refSeedWord v j := by
  intro fuel
  induction fuel with
  | zero =>
    intro i f v hif _ hagree j hj
    simp only [seedLoop]
    exact hagree j (by omega)
  | succ fl ih =>
    intro i f v hif h1 hagree j hj
    have hg : i < SIZE := by norm_num [SIZE]; omega
    simp only [seedLoop, if_pos hg]
    apply ih (i + 1) _ v (by omega) (by omega) _ j hj
    intro j' hj'
    by_cases hji : j' = i
    · subst hji
      simp only [upd, eq_self_iff_true, if_true]
      rw [hagree (j' - 1) (by omega), refSeedWord_step v j' (by omega)]
    · simp only [upd, if_neg hji]
      exact hagree j' (by omega)

/-- After `seed`, the state words `0..623` are exactly the reference
seeding words. -/
theorem seed_MT_eq (s : MTState) (v : Nat) (j : Nat) (hj : j < 624) :
    (seed s v).MT j = refSeedWord v j := by
  simp only [seed]
  apply seedLoop_ref (SIZE - 1) 1 _ v (by norm_num [SIZE]) (by norm_num) _ j hj
  intro j' hj'
  have hz : j' = 0 := by omega
  subst hz
  simp [upd, refSeedWord]

/-- `seed` writes nothing outside `0..623`. -/
theorem seedLoop_out :
    ∀ (fuel : Nat) (f : Nat → Nat) (i j : Nat), 624 ≤ j → i < 624 + 1 →
      seedLoop fuel f i j = f j := by
  intro fuel
  induction fuel with
  | zero => intro f i j _ _; rfl
  | succ fl ih =>
    intro f i j hj hi
    by_cases hg : i < SIZE
    · simp only [seedLoop, if_pos hg]
      rw [ih _ (i + 1) j hj (by norm_num [SIZE] at hg; omega)]
      simp only [upd]
      rw [if_neg (by norm_num [SIZE] at hg; omega)]
    · simp only [seedLoop, if_neg hg]

theorem seed_MT_out (s : MTState) (v : Nat) (j : Nat) (hj : 624 ≤ j) :
    (seed s v).MT j = s.MT j := by
  simp only [seed]
  rw [seedLoop_out (SIZE - 1) _ 1 j hj (by norm_num [SIZE])]
  simp only [upd]
  rw [if_neg (by omega)]

/-! ### Lockstep simulation between the implementation and the reference -/

theorem temper_eq_spec (y : Nat) : temper_spec y = temper y := rfl

theorem seed_index (s : MTState) (v : Nat) : (seed s v).index = 624 := rfl

set_option maxRecDepth 40000 in
/-- A draw from a state with exhausted cursor twists, outputs the tempered
new word 0 and leaves the cursor at 1. -/
theorem rand_u32_twist {s : MTState} (h : s.index = 624) :
    rand_u32 s
      = (temper (generate_numbers s.MT 0), MTState.mk (generate_numbers s.MT) 1) := by
  simp only [rand_u32, SIZE]
  rw [if_pos h]

theorem rand_u32_no_twist {s : MTState} (h : ¬ s.index = 624) :
    rand_u32 s = (temper (s.MT s.index), MTState.mk s.MT (s.index + 1)) := by
  simp only [rand_u32, SIZE]
  rw [if_neg h]

set_option maxRecDepth 40000 in
theorem refStep_twist {t : MTState} (h : t.index = 624) :
    refStep t
      = (temper_spec (twist_spec t.MT 0), MTState.mk (twist_spec t.MT) 1) := by
  simp only [refStep]
  rw [if_pos h]

theorem refStep_no_twist {t : MTState} (h : ¬ t.index = 624) :
    refStep t = (temper_spec (t.MT t.index), MTState.mk t.MT (t.index + 1)) := by
  simp only [refStep]
  rw [if_neg h]

set_option maxRecDepth 40000 in
theorem rel_step {s t : MTState} (h : SRel s t) :
    (rand_u32 s).1 = (refStep t).1 ∧ SRel (rand_u32 s).2 (refStep t).2 := by
  obtain ⟨hidx, hle, hmt⟩ := h
  by_cases h624 : s.index = 624
  · have ht : t.index = 624 := by omega
    have hts : ∀ j, j < 624 → generate_numbers s.MT j = twist_spec t.MT j := by
      intro j hj
      rw [gen_eq_twist]
      exact twist_spec_congr s.MT t.MT hmt j hj
    rw [rand_u32_twist h624, refStep_twist ht]
    refine ⟨?_, ?_, ?_, ?_⟩
    · show temper (generate_numbers s.MT 0) = temper_spec (twist_spec t.MT 0)
      rw [temper_eq_spec, hts 0 (by norm_num)]
    · show (1 : Nat) = 1
      rfl
    · show (1 : Nat) ≤ 624
      norm_num
    · show ∀ j, j < 624 → generate_numbers s.MT j = twist_spec t.MT j
      exact hts
  · have ht : ¬ t.index = 624 := by omega
    have hlt : s.index < 624 := by omega
    rw [rand_u32_no_twist h624, refStep_no_twist ht]
    refine ⟨?_, ?_, ?_, ?_⟩
    · show temper (s.MT s.index) = temper_spec (t.MT t.index)
      rw [temper_eq_spec, ← hidx, hmt s.index hlt]
    · show s.index + 1 = t.index + 1
      omega
    · show s.index + 1 ≤ 624
      omega
    · show ∀ j, j < 624 → s.MT j = t.MT j
      exact hmt

theorem rel_iter {s t : MTState} (h : SRel s t) :
    ∀ n, SRel (randIter n s) (refIter n t) := by
  intro n
  induction n generalizing s t with
  | zero => exact h
  | succ n ih => exact ih (rel_step h).2

theorem rel_out {s t : MTState} (h : SRel s t) (n : Nat) :
    mtOut s n = refOut t n :=
  (rel_step (rel_iter h n)).1

theorem seed_rel (s : MTState) (v : Nat) : SRel (seed s v) (refState v) := by
  refine ⟨rfl, by norm_num [seed, SIZE], fun j hj => ?_⟩
  rw [seed_MT_eq s v j hj]
  rfl

/-- Any two seedings with the same value produce the same draw sequence. -/
theorem seeded_out_unique (v : Nat) (s1 s2 : MTState) (n : Nat) :
    mtOut (seed s1 v) n = mtOut (seed s2 v) n := by
  rw [rel_out (seed_rel s1 v) n, rel_out (seed_rel s2 v) n]

/-! ### Cursor arithmetic of draws -/

theorem randIter_back : ∀ (n : Nat) (s : MTState),
    randIter (n + 1) s = (rand_u32 (randIter n s)).2 := by
  intro n
  induction n with
  | zero => intro s; rfl
  | succ n ih =>
    intro s
    show randIter (n + 1) (rand_u32 s).2 = _
    rw [ih (rand_u32 s).2]
    rfl

theorem step_index_lt {s : MTState} (h : ¬ s.index = 624) :
    (rand_u32 s).2.index = s.index + 1 ∧ (rand_u32 s).2.MT = s.MT := by
  rw [rand_u32_no_twist h]
  exact ⟨rfl, rfl⟩

theorem step_index_624 {s : MTState} (h : s.index = 624) :
    (rand_u32 s).2.index = 1 ∧ (rand_u32 s).2.MT = generate_numbers s.MT := by
  rw [rand_u32_twist h]
  exact ⟨rfl, rfl⟩

/-- Starting right after a twist, `k ≤ 624` draws move the cursor to `k`
without touching the state words. -/
theorem cadence : ∀ (k : Nat) (s : MTState), s.index = 0 → k ≤ 624 →
    (randIter k s).index = k ∧ (randIter k s).MT = s.MT := by
  intro k
  induction k with
  | zero => exact fun s h _ => ⟨h, rfl⟩
  | succ n ih =>
    intro s h hk
    have hn := ih s h (by omega)
    have hne : ¬ (randIter n s).index = 624 := by omega
    rw [randIter_back]
    obtain ⟨h1, h2⟩ := step_index_lt hne
    exact ⟨by rw [h1, hn.1], by rw [h2, hn.2]⟩

/-- Reachable states keep the cursor in `[0, 624]`. -/
theorem reach_index_le {s : MTState} (h : Reachable s) : s.index ≤ 624 := by
  induction h with
  | seeded s v => norm_num [seed, SIZE]
  | @draw s hs ih =>
    by_cases h6 : s.index = 624
    · rw [(step_index_624 h6).1]; omega
    · rw [(step_index_lt h6).1]; omega

/-! ### The all-zero state is a fixed point -/

theorem foldl_tss_zero :
    ∀ (l : List Nat) (w : Nat → Nat), (∀ j, w j = 0) →
      ∀ j, List.foldl twistStep_spec w l j = 0 := by
  intro l
  induction l with
  | nil => exact fun w h j => h j
  | cons a t ih =>
    intro w h j
    simp only [List.foldl_cons]
    apply ih
    intro j'
    simp only [twistStep_spec, twistVal_spec, upd, h]
    norm_num

theorem gen_zero (w : Nat → Nat) (h : ∀ j, w j = 0) :
    ∀ j, generate_numbers w j = 0 := by
  intro j
  rw [gen_eq_twist]
  exact foldl_tss_zero _ w h j

theorem iter_zero : ∀ (k : Nat) (s : MTState), (∀ j, s.MT j = 0) →
    ∀ j, (randIter k s).MT j = 0 := by
  intro k
  induction k with
  | zero => exact fun s h => h
  | succ n ih =>
    intro s h
    show ∀ j, (randIter n (rand_u32 s).2).MT j = 0
    apply ih
    intro j
    by_cases h6 : s.index = 624
    · rw [(step_index_624 h6).2]; exact gen_zero s.MT h j
    · rw [(step_index_lt h6).2]; exact h j

theorem out_zero (k : Nat) (s : MTState) (h : ∀ j, s.MT j = 0) :
    mtOut s k = 0 := by
  have hz := iter_zero k s h
  simp only [mtOut]
  by_cases h6 : (randIter k s).index = 624
  · rw [rand_u32_twist h6]
    show temper (generate_numbers (randIter k s).MT 0) = 0
    rw [gen_zero _ hz 0]
    decide
  · rw [rand_u32_no_twist h6]
    show temper ((randIter k s).MT (randIter k s).index) = 0
    rw [hz ((randIter k s).index)]
    decide

/-! ### Concrete first draws -/

theorem refSeedWord_add : ∀ (v a b : Nat),
    refSeedWord v (a + b) = lcgIter (refSeedWord v a) a b := by
  intro v a b
  induction b with
  | zero => rfl
  | succ b ih =>
    show refSeedWord v ((a + b) + 1) = _
    simp only [refSeedWord, lcgIter]
    rw [ih, Nat.add_assoc]

/-- The first draw after seeding depends only on seed words 0, 1 and 397. -/
theorem first_draw_val (s : MTState) (v : Nat) :
    mtOut (seed s v) 0 = temper (firstWord v (refSeedWord v 1) (refSeedWord v 397)) := by
  have h0 : mtOut (seed s v) 0 = temper (generate_numbers (seed s v).MT 0) := by
    show (rand_u32 (seed s v)).1 = _
    rw [rand_u32_twist (seed_index s v)]
  rw [h0, gen_eq_twist, twist_at_zero]
  have h1 : (0 + 1) % 624 = 1 := by norm_num
  have h397 : (0 + 397) % 624 = 397 := by norm_num
  simp only [twistVal_spec, firstWord, h1, h397]
  rw [seed_MT_eq s v 0 (by norm_num), seed_MT_eq s v 1 (by norm_num),
    seed_MT_eq s v 397 (by norm_num)]
  rfl

set_option maxRecDepth 4000 in
/-- After `seed(0)` the first draw is `0x8C7F0AAC` (the canonical MT19937
value for seed 0). -/
theorem firstDraw_seed0 : mtOut (seed initState 0) 0 = 0x8C7F0AAC := by
  have a1 : lcgIter 0 0 100 = 965627108 := by decide
  have a2 : lcgIter 965627108 100 100 = 3630122061 := by decide
  have a3 : lcgIter 3630122061 200 100 = 886825352 := by decide
  have a4 : lcgIter 886825352 300 97 = 145341901 := by decide
  have e1 : refSeedWord 0 100 = 965627108 := by
    have h := refSeedWord_add 0 0 100
    norm_num at h
    rw [h]; exact a1
  have e2 : refSeedWord 0 200 = 3630122061 := by
    have h := refSeedWord_add 0 100 100
    norm_num at h
    rw [h, e1]; exact a2
  have e3 : refSeedWord 0 300 = 886825352 := by
    have h := refSeedWord_add 0 200 100
    norm_num at h
    rw [h, e2]; exact a3
  have e4 : refSeedWord 0 397 = 145341901 := by
    have h := refSeedWord_add 0 300 97
    norm_num at h
    rw [h, e3]; exact a4
  have w1 : refSeedWord 0 1 = 1 := by decide
  rw [first_draw_val initState 0, e4, w1]
  decide

set_option maxRecDepth 4000 in
/-- After `seed(0xFFFFFFFF)` the first draw is `0x18FE69A3`. -/
theorem firstDraw_seedMax : mtOut (seed initState 0xFFFFFFFF) 0 = 0x18FE69A3 := by
  have a1 : lcgIter 0xFFFFFFFF 0 100 = 818037864 := by decide
  have a2 : lcgIter 818037864 100 100 = 2386259892 := by decide
  have a3 : lcgIter 2386259892 200 100 = 958109408 := by decide
  have a4 : lcgIter 958109408 300 97 = 1573917052 := by decide
  have e1 : refSeedWord 0xFFFFFFFF 100 = 818037864 := by
    have h := refSeedWord_add 0xFFFFFFFF 0 100
    norm_num at h
    rw [h]; exact a1
  have e2 : refSeedWord 0xFFFFFFFF 200 = 2386259892 := by
    have h := refSeedWord_add 0xFFFFFFFF 100 100
    norm_num at h
    rw [h, e1]; exact a2
  have e3 : refSeedWord 0xFFFFFFFF 300 = 958109408 := by
    have h := refSeedWord_add 0xFFFFFFFF 200 100
    norm_num at h
    rw [h, e2]; exact a3
  have e4 : refSeedWord 0xFFFFFFFF 397 = 1573917052 := by
    have h := refSeedWord_add 0xFFFFFFFF 300 97
    norm_num at h
    rw [h, e3]; exact a4
  have w1 : refSeedWord 0xFFFFFFFF 1 = 1340201581 := by decide
  rw [first_draw_val initState 0xFFFFFFFF, e4, w1]
  decide

set_option maxRecDepth 4000 in
/-- After `seed(5489)` (the reference default seed) the first draw is the
classic vector value `0xD091BB5C`. -/
theorem firstDraw_seed5489 : mtOut (seed initState 5489) 0 = 0xD091BB5C := by
  have a1 : lcgIter 5489 0 100 = 1834958505 := by decide
  have a2 : lcgIter 1834958505 100 100 = 123512128 := by decide
  have a3 : lcgIter 123512128 200 100 = 423621996 := by decide
  have a4 : lcgIter 423621996 300 97 = 3183906156 := by decide
  have e1 : refSeedWord 5489 100 = 1834958505 := by
    have h := refSeedWord_add 5489 0 100
    norm_num at h
    rw [h]; exact a1
  have e2 : refSeedWord 5489 200 = 123512128 := by
    have h := refSeedWord_add 5489 100 100
    norm_num at h
    rw [h, e1]; exact a2
  have e3 : refSeedWord 5489 300 = 423621996 := by
    have h := refSeedWord_add 5489 200 100
    norm_num at h
    rw [h, e2]; exact a3
  have e4 : refSeedWord 5489 397 = 3183906156 := by
    have h := refSeedWord_add 5489 300 97
    norm_num at h
    rw [h, e3]; exact a4
  have w1 : refSeedWord 5489 1 = 1301868182 := by decide
  rw [first_draw_val initState 5489, e4, w1]
  decide

/-! ### Claim theorems -/

/-- C1: for every 32-bit seed `s` and every `n ≥ 1`, the `n`-th value
returned by `rand_u32()` after `seed(s)` (from any prior global state)
equals the `n`-th output word of the canonical MT19937 reference algorithm
(624-word state, lag 397, magic `0x9908b0df`, standard tempering)
initialized with `s`. -/
theorem C1_matches_reference (s0 : MTState) (v n : Nat)
    (_hv : v < 4294967296) (_hn : 1 ≤ n) :
    mtOut (seed s0 v) (n - 1) = refOut (refState v) (n - 1) :=
  rel_out (seed_rel s0 v) (n - 1)

theorem C1_matches_reference_witness :
    (0 : Nat) < 4294967296 ∧ (1 : Nat) ≤ 1 ∧
      mtOut (seed initState 0) 0 = refOut (refState 0) 0 :=
  ⟨by norm_num, le_refl 1,
    C1_matches_reference initState 0 1 (by norm_num) (le_refl 1)⟩

/-- C2: `seed(value)` sets `words[0] = value`, fills `words[i]` for
`i = 1..623` by the LCG recurrence modulo `2^32`, leaves the cursor at 624
so the first draw twists, and the resulting state words depend on the value
alone. -/
theorem C2_seed_state (s : MTState) (v : Nat) :
    (seed s v).MT 0 = v ∧
    (∀ i, 1 ≤ i → i < 624 →
      (seed s v).MT i
        = (0x6c078965 * ((seed s v).MT (i - 1) ^^^ ((seed s v).MT (i - 1) >>> 30)) + i)
            % 0x100000000) ∧
    (seed s v).index = 624 ∧
    (∀ t j, j < 624 → (seed s v).MT j = (seed t v).MT j) := by
  refine ⟨?_, ?_, rfl, ?_⟩
  · rw [seed_MT_eq s v 0 (by norm_num)]
    rfl
  · intro i h1 h6
    rw [seed_MT_eq s v i h6, seed_MT_eq s v (i - 1) (by omega)]
    exact refSeedWord_step v i h1
  · intro t j hj
    rw [seed_MT_eq s v j hj, seed_MT_eq t v j hj]

theorem C2_seed_state_witness :
    (seed initState 5).MT 0 = 5 ∧
    (seed initState 5).MT 1
      = (0x6c078965
            * ((seed initState 5).MT (1 - 1) ^^^ ((seed initState 5).MT (1 - 1) >>> 30)) + 1)
          % 0x100000000 ∧
    (seed initState 5).index = 624 ∧
    (seed initState 5).MT 3 = (seed (seed initState 9) 5).MT 3 :=
  ⟨(C2_seed_state initState 5).1,
    (C2_seed_state initState 5).2.1 1 (by norm_num) (by norm_num),
    (C2_seed_state initState 5).2.2.1,
    (C2_seed_state initState 5).2.2.2 (seed initState 9) 3 (by norm_num)⟩

/-- C3: the unrolled twist `generate_numbers()` (three loop regions, the
`UNROLL` macro, and the branchless mask `((int32_t(y) << 31) >> 31) & MAGIC`
in place of the odd-`y` conditional) produces, for every pre-twist state
array, exactly the array computed by the naive left-to-right pass that
writes `words[i]` before later iterations read it. -/
theorem C3_unrolled_eq_naive : ∀ f : Nat → Nat, generate_numbers f = twist_spec f :=
  gen_eq_twist

/-- C4: a draw with cursor `c < 624` returns the tempering of `words[c]`,
leaves the words unchanged and increments the cursor; with cursor 624 it
first twists, returns the tempering of the new `words[0]` and ends with
cursor 1. -/
theorem C4_draw_behavior (s : MTState) :
    (s.index < 624 →
      (rand_u32 s).1 = temper (s.MT s.index) ∧
      (rand_u32 s).2.MT = s.MT ∧
      (rand_u32 s).2.index = s.index + 1) ∧
    (s.index = 624 →
      (rand_u32 s).1 = temper (generate_numbers s.MT 0) ∧
      (rand_u32 s).2.MT = generate_numbers s.MT ∧
      (rand_u32 s).2.index = 1) := by
  constructor
  · intro h
    rw [rand_u32_no_twist (by omega)]
    exact ⟨rfl, rfl, rfl⟩
  · intro h
    rw [rand_u32_twist h]
    exact ⟨rfl, rfl, rfl⟩

theorem C4_draw_behavior_witness :
    (rand_u32 (MTState.mk (fun _ => 7) 3)).1 = temper 7 ∧
    (rand_u32 (MTState.mk (fun _ => 7) 3)).2.index = 4 ∧
    (rand_u32 (MTState.mk (fun _ => 7) 624)).2.index = 1 :=
  ⟨((C4_draw_behavior (MTState.mk (fun _ => 7) 3)).1 (by norm_num)).1,
    ((C4_draw_behavior (MTState.mk (fun _ => 7) 3)).1 (by norm_num)).2.2,
    ((C4_draw_behavior (MTState.mk (fun _ => 7) 624)).2 rfl).2.2⟩

/-- C5: the output sequence is a function of the seed alone: two generators
independently seeded with the same value return identical values on every
draw. -/
theorem C5_determinism (v : Nat) (s1 s2 : MTState) (n : Nat) :
    mtOut (seed s1 v) n = mtOut (seed s2 v) n :=
  seeded_out_unique v s1 s2 n

/-- C6: in every reachable state the cursor lies in `[0, 624]`, and the
array accesses of `seed`, `generate_numbers` and `rand_u32` stay inside
`[0, 624)`: none of them writes outside that range, and none of them reads
outside it (states agreeing on `0..623` are treated identically). -/
theorem C6_bounds :
    (∀ s, Reachable s → s.index ≤ 624) ∧
    (∀ s v j, 624 ≤ j → (seed s v).MT j = s.MT j) ∧
    (∀ (f : Nat → Nat) j, 624 ≤ j → generate_numbers f j = f j) ∧
    (∀ s j, 624 ≤ j → (rand_u32 s).2.MT j = s.MT j) ∧
    (∀ (f g : Nat → Nat), (∀ j, j < 624 → f j = g j) →
      ∀ j, j < 624 → generate_numbers f j = generate_numbers g j) ∧
    (∀ s t, s.index = t.index → s.index ≤ 624 →
      (∀ j, j < 624 → s.MT j = t.MT j) → (rand_u32 s).1 = (rand_u32 t).1) := by
  have hgcongr : ∀ (f g : Nat → Nat), (∀ j, j < 624 → f j = g j) →
      ∀ j, j < 624 → generate_numbers f j = generate_numbers g j := by
    intro f g h j hj
    rw [gen_eq_twist, gen_eq_twist]
    exact twist_spec_congr f g h j hj
  refine ⟨fun s h => reach_index_le h, fun s v j hj => seed_MT_out s v j hj,
    ?_, ?_, hgcongr, ?_⟩
  · intro f j hj
    rw [gen_eq_twist]
    exact twist_spec_out f j hj
  · intro s j hj
    by_cases h6 : s.index = 624
    · rw [(step_index_624 h6).2, gen_eq_twist]
      exact twist_spec_out _ j hj
    · rw [(step_index_lt h6).2]
  · intro s t hidx hle hmt
    by_cases h6 : s.index = 624
    · rw [rand_u32_twist h6, rand_u32_twist (by omega)]
      show temper (generate_numbers s.MT 0) = temper (generate_numbers t.MT 0)
      rw [hgcongr s.MT t.MT hmt 0 (by norm_num)]
    · rw [rand_u32_no_twist h6, rand_u32_no_twist (by omega)]
      show temper (s.MT s.index) = temper (t.MT t.index)
      rw [← hidx, hmt s.index (by omega)]

theorem C6_bounds_witness :
    (seed initState 0).index ≤ 624 ∧
    (seed initState 1).MT 700 = initState.MT 700 ∧
    generate_numbers (fun _ => 0) 700 = 0 ∧
    (rand_u32 initState).2.MT 700 = initState.MT 700 ∧
    generate_numbers (fun _ => 0) 5
      = generate_numbers (fun j => if j < 624 then 0 else 9) 5 ∧
    (rand_u32 initState).1
      = (rand_u32 (MTState.mk (fun j => if j < 624 then 0 else 9) 624)).1 :=
  ⟨C6_bounds.1 (seed initState 0) (Reachable.seeded initState 0),
    C6_bounds.2.1 initState 1 700 (by norm_num),
    C6_bounds.2.2.1 (fun _ => 0) 700 (by norm_num),
    C6_bounds.2.2.2.1 initState 700 (by norm_num),
    C6_bounds.2.2.2.2.1 (fun _ => 0) (fun j => if j < 624 then 0 else 9)
      (fun j hj => by simp [hj]) 5 (by norm_num),
    C6_bounds.2.2.2.2.2 initState (MTState.mk (fun j => if j < 624 then 0 else 9) 624)
      rfl (by norm_num [initState, SIZE]) (fun j hj => by simp [initState, hj])⟩

/-- C7: from a state in which a twist has just completed (cursor 0), draws
1 through 624 each return a word of that batch without twisting (the state
words are untouched and the cursor counts up), and draw 625 performs
exactly one twist (the state words become `generate_numbers` of the batch)
before returning, ending with cursor 1 — for every such state, whatever
seed produced it. -/
theorem C7_batch_cadence (s : MTState) (h : s.index = 0) :
    (∀ k, k ≤ 624 → (randIter k s).index = k) ∧
    (∀ k, k < 624 →
      ¬ (randIter k s).index = 624 ∧ (randIter (k + 1) s).MT = (randIter k s).MT) ∧
    (randIter 624 s).index = 624 ∧
    (randIter 625 s).MT = generate_numbers ((randIter 624 s).MT) ∧
    (randIter 625 s).index = 1 := by
  refine ⟨fun k hk => (cadence k s h hk).1, ?_, (cadence 624 s h (le_refl 624)).1, ?_, ?_⟩
  · intro k hk
    have hne : ¬ (randIter k s).index = 624 := by
      rw [(cadence k s h (by omega)).1]; omega
    exact ⟨hne, by rw [randIter_back]; exact (step_index_lt hne).2⟩
  · rw [randIter_back 624 s]
    exact (step_index_624 ((cadence 624 s h (le_refl 624)).1)).2
  · rw [randIter_back 624 s]
    exact (step_index_624 ((cadence 624 s h (le_refl 624)).1)).1

theorem C7_batch_cadence_witness :
    (randIter 5 (MTState.mk (fun _ => 0) 0)).index = 5 ∧
    ¬ (randIter 623 (MTState.mk (fun _ => 0) 0)).index = 624 ∧
    (randIter 624 (MTState.mk (fun _ => 0) 0)).index = 624 ∧
    (randIter 625 (MTState.mk (fun _ => 0) 0)).index = 1 :=
  ⟨(C7_batch_cadence (MTState.mk (fun _ => 0) 0) rfl).1 5 (by norm_num),
    ((C7_batch_cadence (MTState.mk (fun _ => 0) 0) rfl).2.1 623 (by norm_num)).1,
    (C7_batch_cadence (MTState.mk (fun _ => 0) 0) rfl).2.2.1,
    (C7_batch_cadence (MTState.mk (fun _ => 0) 0) rfl).2.2.2.2⟩

/-- C8, counterexample: after `seed(0)` the first `rand_u32()` is not
`0xD091BB5C` (that value is the first draw of the reference default seed
5489); the code returns `0x8C7F0AAC`. -/
theorem C8_seed_edges_counterexample :
    ¬ mtOut (seed initState 0) 0 = 0xD091BB5C := by
  rw [firstDraw_seed0]
  norm_num

/-- C8, amended: seeding with 0 and with `0xFFFFFFFF` are total and each
produces a fixed reproducible sequence; after `seed(0)` the first draw is
`0x8C7F0AAC` and after `seed(0xFFFFFFFF)` it is `0x18FE69A3` (the value
`0xD091BB5C` quoted by the specification is the first draw for seed 5489,
the reference default). -/
theorem C8_seed_edges_amended :
    mtOut (seed initState 0) 0 = 0x8C7F0AAC ∧
    mtOut (seed initState 0xFFFFFFFF) 0 = 0x18FE69A3 ∧
    mtOut (seed initState 5489) 0 = 0xD091BB5C ∧
    (∀ (s1 s2 : MTState) (n : Nat),
      mtOut (seed s1 0) n = mtOut (seed s2 0) n ∧
      mtOut (seed s1 0xFFFFFFFF) n = mtOut (seed s2 0xFFFFFFFF) n) :=
  ⟨firstDraw_seed0, firstDraw_seedMax, firstDraw_seed5489,
    fun s1 s2 n =>
      ⟨seeded_out_unique 0 s1 s2 n, seeded_out_unique 0xFFFFFFFF s1 s2 n⟩⟩

/-- C9: calling `rand_u32()` without any prior `seed` is fully defined: the
static array is zero-initialized with cursor 624, the twist maps the
all-zero array to itself, tempering of 0 is 0, and every draw returns 0. -/
theorem C9_unseeded_zero :
    initState.index = 624 ∧
    (∀ j, generate_numbers (fun _ => 0) j = 0) ∧
    temper 0 = 0 ∧
    (∀ k, mtOut initState k = 0) :=
  ⟨rfl, fun j => gen_zero (fun _ => 0) (fun _ => rfl) j, rfl,
    fun k => out_zero k initState (fun _ => rfl)⟩

/-- C10: re-seeding erases all history: for any value `v` and any two
reachable prior states, calling `seed(v)` in both yields identical
subsequent draw sequences. -/
theorem C10_reseed_overrides (v : Nat) (s1 s2 : MTState)
    (_h1 : Reachable s1) (_h2 : Reachable s2) :
    ∀ n, mtOut (seed s1 v) n = mtOut (seed s2 v) n :=
  fun n => seeded_out_unique v s1 s2 n

theorem C10_reseed_overrides_witness :
    mtOut (seed (seed initState 3) 7) 0
      = mtOut (seed (rand_u32 (seed initState 4)).2 7) 0 :=
  C10_reseed_overrides 7 (seed initState 3) (rand_u32 (seed initState 4)).2
    (Reachable.seeded initState 3)
    (Reachable.draw (Reachable.seeded initState 4)) 0
